import Mathlib

set_option maxRecDepth 10000

/-!
Shallow embedding of the ST7735 TFT display driver (src/lib.rs).

The driver talks to the display over an SPI transport plus two digital
output pins (data/command select and reset) and a millisecond delay
source.  We model the externally visible behaviour as a trace of events:
pin levels driven, SPI writes (one opcode byte framed as a command, or a
block of data bytes), and delays.  Every pin drive and SPI write is
fallible; we model fault injection with an optional index of the first
bus/pin operation that fails.  Machine integers (u16 coordinates and
colors, u8 parameter bytes) are modelled as Nat with explicit reduction
modulo 2^16 where the Rust u16 arithmetic wraps.
-/

namespace St7735Lcd

/-- Opcodes used by the driver, as named in src/lib.rs.  The numeric
opcode byte of each instruction lives in the instruction module of the
crate (not part of the sources given here); no claim depends on the
numeric values, so traces record the instruction symbolically. -/
inductive Instruction where
  | SWRESET
  | SLPOUT
  | FRMCTR1
  | FRMCTR2
  | FRMCTR3
  | INVCTR
  | PWCTR1
  | PWCTR2
  | PWCTR3
  | PWCTR4
  | PWCTR5
  | VMCTR1
  | INVON
  | INVOFF
  | MADCTL
  | COLMOD
  | DISPON
  | CASET
  | RASET
  | RAMWR
deriving DecidableEq

/-- Display orientation (src/lib.rs lines 46-52), with the discriminant
byte of each variant. -/
inductive Orientation where
  | Portrait
  | Landscape
  | PortraitSwapped
  | LandscapeSwapped
deriving DecidableEq

/-- The ToPrimitive conversion of Orientation: each variant maps to its
declared discriminant. -/
def Orientation.toU8 : Orientation → Nat
  | .Portrait => 0x00
  | .Landscape => 0x60
  | .PortraitSwapped => 0xC0
  | .LandscapeSwapped => 0xA0

/-- One externally visible action of the driver: a reset-pin level, a
data/command-pin level, an SPI write of a command opcode byte, an SPI
write of a block of data bytes, or a blocking delay. -/
inductive Event where
  | rstHigh
  | rstLow
  | dcLow
  | dcHigh
  | cmdWrite (i : Instruction)
  | dataWrite (bytes : List Nat)
  | delayMs (ms : Nat)
deriving DecidableEq

/-- The driver state (struct ST7735, src/lib.rs lines 17-43).  The spi,
dc and rst fields of the Rust struct are the external collaborators; we
replace them by the trace of events transmitted so far plus the fault
injection harness: opsDone counts the fallible pin/SPI operations issued
so far, and failAt optionally gives the index of the operation that
fails. -/
structure ST7735 where
  rgb : Bool
  inverted : Bool
  dx : Nat
  dy : Nat
  width : Nat
  height : Nat
  trace : List Event
  opsDone : Nat
  failAt : Option Nat
deriving DecidableEq

/-- Creates a new driver instance (src/lib.rs new): offset starts at
(0, 0); the harness starts with an empty trace and no injected fault. -/
def new (rgb inverted : Bool) (width height : Nat) : ST7735 :=
  { rgb := rgb, inverted := inverted, dx := 0, dy := 0,
    width := width, height := height,
    trace := [], opsDone := 0, failAt := none }

/-- One fallible pin/SPI operation: if the fault index equals the number
of operations done so far the operation fails (returning false, the
collapsed error), otherwise the event is appended to the trace. -/
def busOp (e : Event) (m : ST7735) : ST7735 × Bool :=
  if m.failAt = some m.opsDone then
    ({ m with opsDone := m.opsDone + 1 }, false)
  else
    ({ m with trace := m.trace ++ [e], opsDone := m.opsDone + 1 }, true)

/-- The delay source: infallible, records the requested delay. -/
def delay_ms (n : Nat) (m : ST7735) : ST7735 :=
  { m with trace := m.trace ++ [Event.delayMs n] }

/-- Sequencing with the Rust question-mark operator: on error, stop and
propagate. -/
def andThen (r : ST7735 × Bool) (f : ST7735 → ST7735 × Bool) : ST7735 × Bool :=
  if r.2 then f r.1 else r

/-- dc.set_high (src/lib.rs start_data). -/
def ST7735.start_data (m : ST7735) : ST7735 × Bool :=
  busOp Event.dcHigh m

/-- spi.write of a block of data bytes (src/lib.rs write_data). -/
def ST7735.write_data (m : ST7735) (data : List Nat) : ST7735 × Bool :=
  busOp (Event.dataWrite data) m

/-- u16::to_be_bytes: most significant byte first. -/
def to_be_bytes (value : Nat) : List Nat :=
  [value / 256 % 256, value % 256]

/-- src/lib.rs write_word: serialize a u16 as two big-endian data
bytes. -/
def ST7735.write_word (m : ST7735) (value : Nat) : ST7735 × Bool :=
  m.write_data (to_be_bytes value)

/-- src/lib.rs write_command: drive dc low, write the opcode byte; if
parameters are present, drive dc high and write them as one data
block. -/
def ST7735.write_command (m : ST7735) (command : Instruction)
    (params : Option (List Nat)) : ST7735 × Bool :=
  andThen (busOp Event.dcLow m) fun m =>
  andThen (busOp (Event.cmdWrite command) m) fun m =>
  match params with
  | some ps => andThen m.start_data fun m => m.write_data ps
  | none => (m, true)

/-- Loop of src/lib.rs write_words_buffered.  The 32-byte buffer array
is modelled by its filled prefix buffer[0..index] (so index is the
length of the list); the full-buffer flush fires exactly when index
reaches 32, at which point the filled prefix is the whole array, and
after the loop the filled prefix buffer[0..index] is flushed as-is. -/
def ST7735.write_words_buffered_go : List Nat → List Nat → ST7735 → ST7735 × Bool
  | [], buffer, m => m.write_data buffer
  | word :: words, buffer, m =>
    let buffer := buffer ++ to_be_bytes word
    if 32 ≤ buffer.length then
      andThen (m.write_data buffer) (ST7735.write_words_buffered_go words [])
    else
      ST7735.write_words_buffered_go words buffer m

/-- src/lib.rs write_words_buffered: start with an empty buffer. -/
def ST7735.write_words_buffered (m : ST7735) (words : List Nat) : ST7735 × Bool :=
  ST7735.write_words_buffered_go words [] m

/-- Pure model of the data blocks flushed by write_words_buffered_go
from a given buffer residue. -/
def bufFlushes : List Nat → List Nat → List (List Nat)
  | [], buffer => [buffer]
  | word :: words, buffer =>
    let buffer := buffer ++ to_be_bytes word
    if 32 ≤ buffer.length then
      buffer :: bufFlushes words []
    else
      bufFlushes words buffer

/-- The data blocks flushed by write_words_buffered on a word list. -/
def flushes (words : List Nat) : List (List Nat) :=
  bufFlushes words []

/-- Big-endian byte encoding of a word sequence, in order. -/
def encodeWords : List Nat → List Nat
  | [] => []
  | word :: words => to_be_bytes word ++ encodeWords words

/-- Concatenation of a list of byte blocks. -/
def joinChunks : List (List Nat) → List Nat
  | [] => []
  | c :: cs => c ++ joinChunks cs

/-- src/lib.rs set_orientation: MADCTL with the orientation byte, OR
0x08 when the panel is BGR. -/
def ST7735.set_orientation (m : ST7735) (orientation : Orientation) : ST7735 × Bool :=
  if m.rgb then
    m.write_command Instruction.MADCTL (some [orientation.toU8])
  else
    m.write_command Instruction.MADCTL (some [Nat.lor orientation.toU8 0x08])

/-- src/lib.rs set_offset: unconditionally replace the global offset. -/
def ST7735.set_offset (m : ST7735) (dx dy : Nat) : ST7735 :=
  { m with dx := dx, dy := dy }

/-- src/lib.rs set_address_window: CASET with the two column words,
then RASET with the two row words.  The u16 additions wrap, hence the
explicit reduction modulo 2^16. -/
def ST7735.set_address_window (m : ST7735) (sx sy ex ey : Nat) : ST7735 × Bool :=
  andThen (m.write_command Instruction.CASET none) fun m =>
  andThen m.start_data fun m =>
  andThen (m.write_word ((sx + m.dx) % 65536)) fun m =>
  andThen (m.write_word ((ex + m.dx) % 65536)) fun m =>
  andThen (m.write_command Instruction.RASET none) fun m =>
  andThen m.start_data fun m =>
  andThen (m.write_word ((sy + m.dy) % 65536)) fun m =>
  m.write_word ((ey + m.dy) % 65536)

/-- src/lib.rs set_pixel: 1x1 address window at (x, y), RAMWR, then one
color word as data. -/
def ST7735.set_pixel (m : ST7735) (x y color : Nat) : ST7735 × Bool :=
  andThen (m.set_address_window x y x y) fun m =>
  andThen (m.write_command Instruction.RAMWR none) fun m =>
  andThen m.start_data fun m =>
  m.write_word color

/-- src/lib.rs write_pixels_buffered: RAMWR, data phase, then the
buffered word writer. -/
def ST7735.write_pixels_buffered (m : ST7735) (colors : List Nat) : ST7735 × Bool :=
  andThen (m.write_command Instruction.RAMWR none) fun m =>
  andThen m.start_data fun m =>
  m.write_words_buffered colors

/-- src/lib.rs set_pixels_buffered: address window then buffered pixel
write. -/
def ST7735.set_pixels_buffered (m : ST7735) (sx sy ex ey : Nat)
    (colors : List Nat) : ST7735 × Bool :=
  andThen (m.set_address_window sx sy ex ey) fun m =>
  m.write_pixels_buffered colors

/-- The Rust cast of an i32 coordinate to u16: truncation modulo 2^16. -/
def i32_to_u16 (x : Int) : Nat :=
  (x % 65536).toNat

/-- The fill-only arm of src/lib.rs draw_rectangle (fill color present,
no stroke color): rect_size = (brx - tlx + 1) * (bry - tly + 1) copies
of the fill word, streamed through set_pixels_buffered at the corner
coordinates cast to u16.  The fill argument is the raw 16-bit word of
the fill color (the RawU16 conversion is external to the driver). -/
def ST7735.draw_rectangle_filled (m : ST7735)
    (top_left_x top_left_y bottom_right_x bottom_right_y : Int)
    (fill : Nat) : ST7735 × Bool :=
  let rect_width := bottom_right_x - top_left_x + 1
  let rect_height := bottom_right_y - top_left_y + 1
  let rect_size := rect_width * rect_height
  let color := fill
  let iter := List.replicate rect_size.toNat color
  m.set_pixels_buffered (i32_to_u16 top_left_x) (i32_to_u16 top_left_y)
    (i32_to_u16 bottom_right_x) (i32_to_u16 bottom_right_y) iter

/-- src/lib.rs hard_reset: reset high, 10 ms, low, 10 ms, high. -/
def ST7735.hard_reset (m : ST7735) : ST7735 × Bool :=
  andThen (busOp Event.rstHigh m) fun m =>
  andThen (busOp Event.rstLow (delay_ms 10 m)) fun m =>
  busOp Event.rstHigh (delay_ms 10 m)

/-- src/lib.rs init: hard reset followed by the fixed bring-up command
sequence, with branches on the inverted and rgb flags. -/
def ST7735.init (m : ST7735) : ST7735 × Bool :=
  andThen m.hard_reset fun m =>
  andThen (m.write_command Instruction.SWRESET none) fun m =>
  andThen ((delay_ms 200 m).write_command Instruction.SLPOUT none) fun m =>
  andThen ((delay_ms 200 m).write_command Instruction.FRMCTR1 (some [0x01, 0x2C, 0x2D])) fun m =>
  andThen (m.write_command Instruction.FRMCTR2 (some [0x01, 0x2C, 0x2D])) fun m =>
  andThen (m.write_command Instruction.FRMCTR3 (some [0x01, 0x2C, 0x2D, 0x01, 0x2C, 0x2D])) fun m =>
  andThen (m.write_command Instruction.INVCTR (some [0x07])) fun m =>
  andThen (m.write_command Instruction.PWCTR1 (some [0xA2, 0x02, 0x84])) fun m =>
  andThen (m.write_command Instruction.PWCTR2 (some [0xC5])) fun m =>
  andThen (m.write_command Instruction.PWCTR3 (some [0x0A, 0x00])) fun m =>
  andThen (m.write_command Instruction.PWCTR4 (some [0x8A, 0x2A])) fun m =>
  andThen (m.write_command Instruction.PWCTR5 (some [0x8A, 0xEE])) fun m =>
  andThen (m.write_command Instruction.VMCTR1 (some [0x0E])) fun m =>
  andThen (if m.inverted then m.write_command Instruction.INVON none
           else m.write_command Instruction.INVOFF none) fun m =>
  andThen (if m.rgb then m.write_command Instruction.MADCTL (some [0x00])
           else m.write_command Instruction.MADCTL (some [0x08])) fun m =>
  andThen (m.write_command Instruction.COLMOD (some [0x05])) fun m =>
  andThen (m.write_command Instruction.DISPON none) fun m =>
  (delay_ms 200 m, true)

/-- The full event trace of a successful init run, as a function of the
two configuration flags.  The flags appear in exactly two places: the
inversion command choice and the MADCTL parameter byte. -/
def initTrace (rgb inverted : Bool) : List Event :=
  [Event.rstHigh, Event.delayMs 10, Event.rstLow, Event.delayMs 10, Event.rstHigh,
   Event.dcLow, Event.cmdWrite Instruction.SWRESET, Event.delayMs 200,
   Event.dcLow, Event.cmdWrite Instruction.SLPOUT, Event.delayMs 200,
   Event.dcLow, Event.cmdWrite Instruction.FRMCTR1, Event.dcHigh, Event.dataWrite [0x01, 0x2C, 0x2D],
   Event.dcLow, Event.cmdWrite Instruction.FRMCTR2, Event.dcHigh, Event.dataWrite [0x01, 0x2C, 0x2D],
   Event.dcLow, Event.cmdWrite Instruction.FRMCTR3, Event.dcHigh,
     Event.dataWrite [0x01, 0x2C, 0x2D, 0x01, 0x2C, 0x2D],
   Event.dcLow, Event.cmdWrite Instruction.INVCTR, Event.dcHigh, Event.dataWrite [0x07],
   Event.dcLow, Event.cmdWrite Instruction.PWCTR1, Event.dcHigh, Event.dataWrite [0xA2, 0x02, 0x84],
   Event.dcLow, Event.cmdWrite Instruction.PWCTR2, Event.dcHigh, Event.dataWrite [0xC5],
   Event.dcLow, Event.cmdWrite Instruction.PWCTR3, Event.dcHigh, Event.dataWrite [0x0A, 0x00],
   Event.dcLow, Event.cmdWrite Instruction.PWCTR4, Event.dcHigh, Event.dataWrite [0x8A, 0x2A],
   Event.dcLow, Event.cmdWrite Instruction.PWCTR5, Event.dcHigh, Event.dataWrite [0x8A, 0xEE],
   Event.dcLow, Event.cmdWrite Instruction.VMCTR1, Event.dcHigh, Event.dataWrite [0x0E],
   Event.dcLow, Event.cmdWrite (if inverted then Instruction.INVON else Instruction.INVOFF),
   Event.dcLow, Event.cmdWrite Instruction.MADCTL, Event.dcHigh,
     Event.dataWrite [if rgb then 0x00 else 0x08],
   Event.dcLow, Event.cmdWrite Instruction.COLMOD, Event.dcHigh, Event.dataWrite [0x05],
   Event.dcLow, Event.cmdWrite Instruction.DISPON, Event.delayMs 200]

/-- An event is a fallible pin/SPI operation (everything except a
delay). -/
def isBusOp : Event → Bool
  | Event.delayMs _ => false
  | _ => true

/-- An event is an SPI data write. -/
def isDataWrite : Event → Bool
  | Event.dataWrite _ => true
  | _ => false

/-- The prefix of a trace that is emitted before its k-th (0-indexed)
fallible pin/SPI operation: delays between successful operations are
kept, and everything from the failing operation onward is dropped. -/
def takeBeforeOp : Nat → List Event → List Event
  | _, [] => []
  | k, e :: es =>
    if isBusOp e then
      match k with
      | 0 => []
      | k + 1 => e :: takeBeforeOp k es
    else
      e :: takeBeforeOp k es

/-! ### Behaviour of the primitives when no fault is injected -/

lemma busOp_none {m : ST7735} (e : Event) (h : m.failAt = none) :
    busOp e m = ({ m with trace := m.trace ++ [e], opsDone := m.opsDone + 1 }, true) := by
  simp [busOp, h]

lemma write_command_none {m : ST7735} (c : Instruction) (h : m.failAt = none) :
    m.write_command c none =
      ({ m with trace := m.trace ++ [Event.dcLow, Event.cmdWrite c],
                opsDone := m.opsDone + 2 }, true) := by
  simp [ST7735.write_command, andThen, busOp, h]

lemma write_command_some {m : ST7735} (c : Instruction) (ps : List Nat)
    (h : m.failAt = none) :
    m.write_command c (some ps) =
      ({ m with trace := m.trace ++ [Event.dcLow, Event.cmdWrite c, Event.dcHigh,
                                     Event.dataWrite ps],
                opsDone := m.opsDone + 4 }, true) := by
  simp [ST7735.write_command, ST7735.start_data, ST7735.write_data, andThen, busOp, h]

lemma write_word_none {m : ST7735} (v : Nat) (h : m.failAt = none) :
    m.write_word v =
      ({ m with trace := m.trace ++ [Event.dataWrite (to_be_bytes v)],
                opsDone := m.opsDone + 1 }, true) := by
  simp [ST7735.write_word, ST7735.write_data, busOp, h]

lemma set_address_window_none {m : ST7735} (sx sy ex ey : Nat) (h : m.failAt = none) :
    m.set_address_window sx sy ex ey =
      ({ m with trace := m.trace ++
          [Event.dcLow, Event.cmdWrite Instruction.CASET, Event.dcHigh,
           Event.dataWrite (to_be_bytes ((sx + m.dx) % 65536)),
           Event.dataWrite (to_be_bytes ((ex + m.dx) % 65536)),
           Event.dcLow, Event.cmdWrite Instruction.RASET, Event.dcHigh,
           Event.dataWrite (to_be_bytes ((sy + m.dy) % 65536)),
           Event.dataWrite (to_be_bytes ((ey + m.dy) % 65536))],
                opsDone := m.opsDone + 10 }, true) := by
  simp [ST7735.set_address_window, ST7735.write_command, ST7735.start_data,
    ST7735.write_data, ST7735.write_word, andThen, busOp, h, Nat.add_assoc]

/-! ### The buffered word writer -/

lemma write_words_buffered_go_none (words : List Nat) :
    ∀ (buffer : List Nat) (m : ST7735), m.failAt = none →
      ST7735.write_words_buffered_go words buffer m =
        ({ m with trace := m.trace ++ (bufFlushes words buffer).map Event.dataWrite,
                  opsDone := m.opsDone + (bufFlushes words buffer).length }, true) := by
  induction words with
  | nil =>
    intro buffer m h
    simp [ST7735.write_words_buffered_go, bufFlushes, ST7735.write_data, busOp, h]
  | cons word words ih =>
    intro buffer m h
    by_cases hfull : 32 ≤ (buffer ++ to_be_bytes word).length
    · simp only [ST7735.write_words_buffered_go, bufFlushes, hfull, if_pos,
        ST7735.write_data, busOp_none _ h, andThen]
      rw [ih [] _ (by simp [h])]
      simp [Nat.add_assoc, Nat.add_comm 1]
    · simp only [ST7735.write_words_buffered_go, bufFlushes, hfull, if_neg,
        not_false_iff]
      exact ih _ _ h

lemma write_words_buffered_none {m : ST7735} (words : List Nat) (h : m.failAt = none) :
    m.write_words_buffered words =
      ({ m with trace := m.trace ++ (flushes words).map Event.dataWrite,
                opsDone := m.opsDone + (flushes words).length }, true) :=
  write_words_buffered_go_none words [] m h

/-- The concatenated flushed bytes are the buffered residue followed by
the big-endian encodings of the words, in order. -/
lemma joinChunks_bufFlushes (words : List Nat) :
    ∀ buffer : List Nat, joinChunks (bufFlushes words buffer) = buffer ++ encodeWords words := by
  induction words with
  | nil => intro buffer; simp [bufFlushes, joinChunks, encodeWords]
  | cons word words ih =>
    intro buffer
    have heq : bufFlushes (word :: words) buffer =
        if 32 ≤ (buffer ++ to_be_bytes word).length then
          (buffer ++ to_be_bytes word) :: bufFlushes words []
        else bufFlushes words (buffer ++ to_be_bytes word) := rfl
    rw [heq]
    by_cases hfull : 32 ≤ (buffer ++ to_be_bytes word).length
    · rw [if_pos hfull]
      simp [joinChunks, ih, encodeWords, List.append_assoc]
    · rw [if_neg hfull]
      simp [joinChunks, ih, encodeWords, List.append_assoc]

/-- Every flushed block holds at most 32 bytes and an even number of
bytes, provided the starting residue does. -/
lemma bufFlushes_sizes (words : List Nat) :
    ∀ buffer : List Nat, buffer.length % 2 = 0 → buffer.length ≤ 30 →
      ∀ c ∈ bufFlushes words buffer, c.length ≤ 32 ∧ c.length % 2 = 0 := by
  induction words with
  | nil =>
    intro buffer heven hle c hc
    simp [bufFlushes] at hc
    subst hc
    exact ⟨by omega, heven⟩
  | cons word words ih =>
    intro buffer heven hle c hc
    by_cases hfull : 32 ≤ (buffer ++ to_be_bytes word).length
    · simp only [bufFlushes, hfull, if_pos] at hc
      rcases List.mem_cons.mp hc with hc | hc
      · subst hc
        simp [to_be_bytes]
        omega
      · exact ih [] (by simp) (by simp) c hc
    · simp only [bufFlushes, hfull, if_neg, not_false_iff] at hc
      refine ih (buffer ++ to_be_bytes word) ?_ ?_ c hc
      · simp [to_be_bytes]
        omega
      · simp only [List.length_append, to_be_bytes, List.length_cons,
          List.length_nil] at hfull ⊢
        omega

/-- The number of flushed blocks: one full flush per 16 words counted
with the residue, plus the final flush. -/
lemma bufFlushes_length (words : List Nat) :
    ∀ buffer : List Nat, buffer.length % 2 = 0 → buffer.length ≤ 30 →
      (bufFlushes words buffer).length = (words.length + buffer.length / 2) / 16 + 1 := by
  induction words with
  | nil =>
    intro buffer heven hle
    simp [bufFlushes]
    omega
  | cons word words ih =>
    intro buffer heven hle
    by_cases hfull : 32 ≤ (buffer ++ to_be_bytes word).length
    · have hlen : buffer.length = 30 := by
        simp [to_be_bytes] at hfull
        omega
      simp only [bufFlushes, hfull, if_pos, List.length_cons]
      rw [ih [] (by simp) (by simp)]
      simp [hlen, List.length_cons]
      omega
    · have hlen : buffer.length < 30 := by
        simp [to_be_bytes] at hfull
        omega
      simp only [bufFlushes, hfull, if_neg, not_false_iff]
      rw [ih (buffer ++ to_be_bytes word) (by simp [to_be_bytes]; omega)
        (by simp [to_be_bytes]; omega)]
      simp [to_be_bytes, List.length_cons]
      omega

/-- The big-endian encoding of n words is 2 * n bytes long. -/
lemma encodeWords_length (words : List Nat) :
    (encodeWords words).length = 2 * words.length := by
  induction words with
  | nil => simp [encodeWords]
  | cons word words ih => simp [encodeWords, to_be_bytes, ih]; omega

/-! ### The bring-up sequence -/

lemma hard_reset_none {m : ST7735} (h : m.failAt = none) :
    m.hard_reset =
      ({ m with trace := m.trace ++ [Event.rstHigh, Event.delayMs 10, Event.rstLow,
                                     Event.delayMs 10, Event.rstHigh],
                opsDone := m.opsDone + 3 }, true) := by
  simp [ST7735.hard_reset, delay_ms, andThen, busOp, h, Nat.add_assoc]

lemma init_none {m : ST7735} (h : m.failAt = none) :
    m.init = ({ m with trace := m.trace ++ initTrace m.rgb m.inverted,
                       opsDone := m.opsDone + 59 }, true) := by
  cases hr : m.rgb <;> cases hi : m.inverted <;>
    simp [ST7735.init, hard_reset_none, write_command_none, write_command_some,
      delay_ms, andThen, h, hr, hi, initTrace, Nat.add_assoc]

/-- Cutting a trace before its k-th fallible operation leaves exactly k
fallible operations, as long as the trace holds at least k of them. -/
lemma takeBeforeOp_busOps : ∀ (k : Nat) (es : List Event),
    k ≤ (es.filter isBusOp).length →
    ((takeBeforeOp k es).filter isBusOp).length = k := by
  intro k es
  induction es generalizing k with
  | nil =>
    intro h
    simp [takeBeforeOp] at h ⊢
    omega
  | cons e es ih =>
    intro h
    cases he : isBusOp e
    · have heq : takeBeforeOp k (e :: es) = e :: takeBeforeOp k es := by
        simp [takeBeforeOp, he]
      rw [heq]
      rw [List.filter_cons_of_neg (by simp [he])] at h ⊢
      exact ih k h
    · cases k with
      | zero => simp [takeBeforeOp, he]
      | succ k =>
        have heq : takeBeforeOp (k + 1) (e :: es) = e :: takeBeforeOp k es := by
          simp [takeBeforeOp, he]
        rw [heq]
        rw [List.filter_cons_of_pos (by simp [he])] at h ⊢
        simp only [List.length_cons] at h ⊢
        rw [ih k (by omega)]

/-! ### Claim theorems -/

/-- C1: for every finite sequence of 16-bit words, write_words_buffered
transmits downstream a sequence of data transactions, each of size at
most 32 bytes and holding only whole 2-byte words, whose concatenation
equals the big-endian 2-byte encodings of the input words in input
order, hence 2 * n bytes in total. -/
theorem write_words_buffered_spec (m : ST7735) (words : List Nat)
    (h : m.failAt = none) :
    (m.write_words_buffered words).2 = true ∧
    (m.write_words_buffered words).1.trace =
      m.trace ++ (flushes words).map Event.dataWrite ∧
    (∀ c ∈ flushes words, c.length ≤ 32 ∧ c.length % 2 = 0) ∧
    joinChunks (flushes words) = encodeWords words ∧
    (encodeWords words).length = 2 * words.length := by
  refine ⟨?_, ?_, ?_, ?_, ?_⟩
  · rw [write_words_buffered_none words h]
  · rw [write_words_buffered_none words h]
  · exact bufFlushes_sizes words [] (by simp) (by simp)
  · simpa [flushes] using joinChunks_bufFlushes words []
  · exact encodeWords_length words

theorem write_words_buffered_spec_witness :
    (new true false 128 160).failAt = none ∧
    (((new true false 128 160).write_words_buffered [0xF800, 0x07E0, 0x001F]).2 = true ∧
     ((new true false 128 160).write_words_buffered [0xF800, 0x07E0, 0x001F]).1.trace =
       (new true false 128 160).trace ++
         (flushes [0xF800, 0x07E0, 0x001F]).map Event.dataWrite ∧
     (∀ c ∈ flushes [0xF800, 0x07E0, 0x001F], c.length ≤ 32 ∧ c.length % 2 = 0) ∧
     joinChunks (flushes [0xF800, 0x07E0, 0x001F]) =
       encodeWords [0xF800, 0x07E0, 0x001F] ∧
     (encodeWords [0xF800, 0x07E0, 0x001F]).length = 2 * [0xF800, 0x07E0, 0x001F].length) :=
  ⟨rfl, write_words_buffered_spec (new true false 128 160) [0xF800, 0x07E0, 0x001F] rfl⟩

/-- C2 counterexample: on exactly 16 words the buffered writer issues 2
downstream data writes (one full 32-byte flush plus the unconditional
final flush, here empty), while ceil(16 / 16) = (16 + 15) / 16 = 1. -/
theorem write_words_buffered_count_cex :
    ¬ (((ST7735.write_words_buffered (new true false 128 160)
          (List.replicate 16 0)).1.trace.filter isDataWrite).length = (16 + 15) / 16) := by
  decide

/-- C2 (amended): for every finite sequence of n 16-bit words,
write_words_buffered issues exactly n / 16 + 1 downstream data writes:
one full 32-byte flush per 16 words plus one unconditional final flush
of the remainder, which is empty when n is a multiple of 16.  This
equals ceil(n / 16) except when 16 divides n, where it is one more. -/
theorem write_words_buffered_count (m : ST7735) (words : List Nat)
    (h : m.failAt = none) :
    (m.write_words_buffered words).1.trace =
      m.trace ++ (flushes words).map Event.dataWrite ∧
    (flushes words).length = words.length / 16 + 1 := by
  refine ⟨?_, ?_⟩
  · rw [write_words_buffered_none words h]
  · simpa [flushes] using bufFlushes_length words [] (by simp) (by simp)

theorem write_words_buffered_count_witness :
    (new true false 128 160).failAt = none ∧
    (((new true false 128 160).write_words_buffered (List.replicate 16 0)).1.trace =
       (new true false 128 160).trace ++
         (flushes (List.replicate 16 0)).map Event.dataWrite ∧
     (flushes (List.replicate 16 0)).length = (List.replicate 16 (0 : Nat)).length / 16 + 1) :=
  ⟨rfl, write_words_buffered_count (new true false 128 160) (List.replicate 16 0) rfl⟩

/-- C3: set_address_window transmits the column-address-set command
with the two word parameters (sx + dx, ex + dx), then the
row-address-set command with (sy + dy, ey + dy); no bounds check
against panel width or height is involved (the statement holds for
every machine, whatever its width and height fields hold). -/
theorem set_address_window_spec (m : ST7735) (sx sy ex ey : Nat)
    (h : m.failAt = none)
    (hsx : sx + m.dx < 65536) (hex : ex + m.dx < 65536)
    (hsy : sy + m.dy < 65536) (hey : ey + m.dy < 65536) :
    (m.set_address_window sx sy ex ey).2 = true ∧
    (m.set_address_window sx sy ex ey).1.trace = m.trace ++
      [Event.dcLow, Event.cmdWrite Instruction.CASET, Event.dcHigh,
       Event.dataWrite (to_be_bytes (sx + m.dx)),
       Event.dataWrite (to_be_bytes (ex + m.dx)),
       Event.dcLow, Event.cmdWrite Instruction.RASET, Event.dcHigh,
       Event.dataWrite (to_be_bytes (sy + m.dy)),
       Event.dataWrite (to_be_bytes (ey + m.dy))] := by
  rw [set_address_window_none sx sy ex ey h]
  simp [Nat.mod_eq_of_lt hsx, Nat.mod_eq_of_lt hex,
    Nat.mod_eq_of_lt hsy, Nat.mod_eq_of_lt hey]

theorem set_address_window_spec_witness :
    (((new true false 128 160).set_offset 2 3).failAt = none ∧
     1 + ((new true false 128 160).set_offset 2 3).dx < 65536 ∧
     5 + ((new true false 128 160).set_offset 2 3).dx < 65536 ∧
     2 + ((new true false 128 160).set_offset 2 3).dy < 65536 ∧
     6 + ((new true false 128 160).set_offset 2 3).dy < 65536) ∧
    ((((new true false 128 160).set_offset 2 3).set_address_window 1 2 5 6).2 = true ∧
     (((new true false 128 160).set_offset 2 3).set_address_window 1 2 5 6).1.trace =
       ((new true false 128 160).set_offset 2 3).trace ++
       [Event.dcLow, Event.cmdWrite Instruction.CASET, Event.dcHigh,
        Event.dataWrite (to_be_bytes (1 + ((new true false 128 160).set_offset 2 3).dx)),
        Event.dataWrite (to_be_bytes (5 + ((new true false 128 160).set_offset 2 3).dx)),
        Event.dcLow, Event.cmdWrite Instruction.RASET, Event.dcHigh,
        Event.dataWrite (to_be_bytes (2 + ((new true false 128 160).set_offset 2 3).dy)),
        Event.dataWrite (to_be_bytes (6 + ((new true false 128 160).set_offset 2 3).dy))]) :=
  ⟨⟨rfl, by decide, by decide, by decide, by decide⟩,
   set_address_window_spec ((new true false 128 160).set_offset 2 3) 1 2 5 6 rfl
     (by decide) (by decide) (by decide) (by decide)⟩

/-- C4: for every config pair (rgb, inverted), a successful init
executes exactly the fixed ordered event sequence initTrace rgb
inverted: hard reset (high, 10 ms, low, 10 ms, high), software reset
plus 200 ms, sleep-out plus 200 ms, the three frame-rate commands with
their fixed bytes, inversion control, the five power controls, VCOM
control, inversion on iff inverted else off, MADCTL 0x00 iff rgb else
0x08, color mode 0x05, display-on plus 200 ms; the flags appear in
initTrace only at the inversion command and the MADCTL byte, so
changing a flag changes nothing else. -/
theorem init_spec (rgb inverted : Bool) (width height : Nat) :
    (ST7735.init (new rgb inverted width height)).2 = true ∧
    (ST7735.init (new rgb inverted width height)).1.trace = initTrace rgb inverted := by
  rw [init_none (show (new rgb inverted width height).failAt = none from rfl)]
  simp [new]

/-- C5: if the fallible pin or transport operation at step k of the
bring-up sequence fails, init returns the error and the transmitted
trace is exactly the prefix of the successful trace that precedes the
failing operation; in particular it holds exactly k pin/SPI operations,
so nothing is issued after the failing step. -/
theorem init_abort_spec (rgb inverted : Bool) (k : Nat) (hk : k < 59) :
    (ST7735.init { new rgb inverted 128 160 with failAt := some k }).2 = false ∧
    (ST7735.init { new rgb inverted 128 160 with failAt := some k }).1.trace =
      takeBeforeOp k (initTrace rgb inverted) ∧
    ((takeBeforeOp k (initTrace rgb inverted)).filter isBusOp).length = k := by
  have main : ∀ (rgb inverted : Bool) (k : Nat), k < 59 →
      (ST7735.init { new rgb inverted 128 160 with failAt := some k }).2 = false ∧
      (ST7735.init { new rgb inverted 128 160 with failAt := some k }).1.trace =
        takeBeforeOp k (initTrace rgb inverted) := by decide
  have hcnt : ((initTrace rgb inverted).filter isBusOp).length = 59 := by
    cases rgb <;> cases inverted <;> decide
  exact ⟨(main rgb inverted k hk).1, (main rgb inverted k hk).2,
    takeBeforeOp_busOps k _ (by rw [hcnt]; omega)⟩

theorem init_abort_spec_witness :
    (3 : Nat) < 59 ∧
    ((ST7735.init { new true false 128 160 with failAt := some 3 }).2 = false ∧
     (ST7735.init { new true false 128 160 with failAt := some 3 }).1.trace =
       takeBeforeOp 3 (initTrace true false) ∧
     ((takeBeforeOp 3 (initTrace true false)).filter isBusOp).length = 3) :=
  ⟨by decide, init_abort_spec true false 3 (by decide)⟩

/-- C6: set_orientation writes MADCTL with one parameter byte equal to
the base value of the mode (Portrait 0x00, Landscape 0x60,
PortraitSwapped 0xC0, LandscapeSwapped 0xA0), OR 0x08 exactly when the
color order is BGR (rgb = false). -/
theorem set_orientation_spec (m : ST7735) (o : Orientation) (h : m.failAt = none) :
    (m.set_orientation o).2 = true ∧
    (m.set_orientation o).1.trace = m.trace ++
      [Event.dcLow, Event.cmdWrite Instruction.MADCTL, Event.dcHigh,
       Event.dataWrite [Nat.lor o.toU8 (if m.rgb then 0x00 else 0x08)]] ∧
    Orientation.toU8 Orientation.Portrait = 0x00 ∧
    Orientation.toU8 Orientation.Landscape = 0x60 ∧
    Orientation.toU8 Orientation.PortraitSwapped = 0xC0 ∧
    Orientation.toU8 Orientation.LandscapeSwapped = 0xA0 := by
  have hmain : (m.set_orientation o).2 = true ∧
      (m.set_orientation o).1.trace = m.trace ++
        [Event.dcLow, Event.cmdWrite Instruction.MADCTL, Event.dcHigh,
         Event.dataWrite [Nat.lor o.toU8 (if m.rgb then 0x00 else 0x08)]] := by
    have hl : ∀ n : Nat, Nat.lor n 0 = n := fun n => Nat.or_zero n
    cases hr : m.rgb <;>
      simp [ST7735.set_orientation, hr, write_command_some _ _ h, hl]
  exact ⟨hmain.1, hmain.2, rfl, rfl, rfl, rfl⟩

theorem set_orientation_spec_witness :
    (new false false 128 160).failAt = none ∧
    (((new false false 128 160).set_orientation Orientation.Landscape).2 = true ∧
     ((new false false 128 160).set_orientation Orientation.Landscape).1.trace =
       (new false false 128 160).trace ++
       [Event.dcLow, Event.cmdWrite Instruction.MADCTL, Event.dcHigh,
        Event.dataWrite [Nat.lor (Orientation.toU8 Orientation.Landscape)
          (if (new false false 128 160).rgb then 0x00 else 0x08)]] ∧
     Orientation.toU8 Orientation.Portrait = 0x00 ∧
     Orientation.toU8 Orientation.Landscape = 0x60 ∧
     Orientation.toU8 Orientation.PortraitSwapped = 0xC0 ∧
     Orientation.toU8 Orientation.LandscapeSwapped = 0xA0) :=
  ⟨rfl, set_orientation_spec (new false false 128 160) Orientation.Landscape rfl⟩

/-- C7: set_pixel emits the column-address-set command with both word
parameters x + dx, the row-address-set command with both word
parameters y + dy (a 1 x 1 window), the memory-write command, and one
data write of the two big-endian bytes of the color word. -/
theorem set_pixel_spec (m : ST7735) (x y color : Nat) (h : m.failAt = none)
    (hx : x + m.dx < 65536) (hy : y + m.dy < 65536) :
    (m.set_pixel x y color).2 = true ∧
    (m.set_pixel x y color).1.trace = m.trace ++
      [Event.dcLow, Event.cmdWrite Instruction.CASET, Event.dcHigh,
       Event.dataWrite (to_be_bytes (x + m.dx)), Event.dataWrite (to_be_bytes (x + m.dx)),
       Event.dcLow, Event.cmdWrite Instruction.RASET, Event.dcHigh,
       Event.dataWrite (to_be_bytes (y + m.dy)), Event.dataWrite (to_be_bytes (y + m.dy)),
       Event.dcLow, Event.cmdWrite Instruction.RAMWR, Event.dcHigh,
       Event.dataWrite (to_be_bytes color)] := by
  simp [ST7735.set_pixel, andThen, set_address_window_none, write_command_none,
    ST7735.start_data, ST7735.write_word, ST7735.write_data, busOp, h,
    Nat.mod_eq_of_lt hx, Nat.mod_eq_of_lt hy, Nat.add_assoc]

/-- Witness for C7 at the concrete input of the spec: set_pixel 5 7
0xF800 with zero offset ends with one data write of [0xF8, 0x00]. -/
theorem set_pixel_spec_witness :
    ((new true false 128 160).failAt = none ∧
     5 + (new true false 128 160).dx < 65536 ∧
     7 + (new true false 128 160).dy < 65536) ∧
    ((new true false 128 160).set_pixel 5 7 0xF800).2 = true ∧
    ((new true false 128 160).set_pixel 5 7 0xF800).1.trace =
      [Event.dcLow, Event.cmdWrite Instruction.CASET, Event.dcHigh,
       Event.dataWrite [0x00, 0x05], Event.dataWrite [0x00, 0x05],
       Event.dcLow, Event.cmdWrite Instruction.RASET, Event.dcHigh,
       Event.dataWrite [0x00, 0x07], Event.dataWrite [0x00, 0x07],
       Event.dcLow, Event.cmdWrite Instruction.RAMWR, Event.dcHigh,
       Event.dataWrite [0xF8, 0x00]] := by
  refine ⟨⟨rfl, by decide, by decide⟩, ?_⟩
  have hmain := set_pixel_spec (new true false 128 160) 5 7 0xF800 rfl
    (by decide) (by decide)
  simpa [new, to_be_bytes] using hmain

/-- C8: for a styled rectangle with a fill color and no stroke color,
whose inclusive corners span w columns and h rows, draw_rectangle
streams through the buffered path exactly w * h color words, each equal
to the 16-bit fill word, into a window set at exactly the corner
coordinates. -/
theorem draw_rectangle_filled_spec (m : ST7735)
    (tlx tly brx bry : Int) (fill : Nat) (w h : Nat)
    (hm : m.failAt = none)
    (hw : brx - tlx + 1 = (w : Int)) (hh : bry - tly + 1 = (h : Int))
    (hw0 : 0 < w) (hh0 : 0 < h)
    (htlx : 0 ≤ tlx) (htly : 0 ≤ tly) (hbrx : brx < 65536) (hbry : bry < 65536)
    (hsx : tlx.toNat + m.dx < 65536) (hex : brx.toNat + m.dx < 65536)
    (hsy : tly.toNat + m.dy < 65536) (hey : bry.toNat + m.dy < 65536) :
    (m.draw_rectangle_filled tlx tly brx bry fill).2 = true ∧
    (m.draw_rectangle_filled tlx tly brx bry fill).1.trace = m.trace ++
      ([Event.dcLow, Event.cmdWrite Instruction.CASET, Event.dcHigh,
        Event.dataWrite (to_be_bytes (tlx.toNat + m.dx)),
        Event.dataWrite (to_be_bytes (brx.toNat + m.dx)),
        Event.dcLow, Event.cmdWrite Instruction.RASET, Event.dcHigh,
        Event.dataWrite (to_be_bytes (tly.toNat + m.dy)),
        Event.dataWrite (to_be_bytes (bry.toNat + m.dy)),
        Event.dcLow, Event.cmdWrite Instruction.RAMWR, Event.dcHigh] ++
       (flushes (List.replicate (w * h) fill)).map Event.dataWrite) ∧
    joinChunks (flushes (List.replicate (w * h) fill)) =
      encodeWords (List.replicate (w * h) fill) ∧
    (encodeWords (List.replicate (w * h) fill)).length = 2 * (w * h) := by
  have hbrx0 : 0 ≤ brx := by omega
  have hbry0 : 0 ≤ bry := by omega
  have htlxlt : tlx < 65536 := by omega
  have htlylt : tly < 65536 := by omega
  have hsize : ((brx - tlx + 1) * (bry - tly + 1)).toNat = w * h := by
    rw [hw, hh, ← Nat.cast_mul, Int.toNat_natCast]
  have hc1 : i32_to_u16 tlx = tlx.toNat := by
    unfold i32_to_u16
    rw [Int.emod_eq_of_lt htlx htlxlt]
  have hc2 : i32_to_u16 tly = tly.toNat := by
    unfold i32_to_u16
    rw [Int.emod_eq_of_lt htly htlylt]
  have hc3 : i32_to_u16 brx = brx.toNat := by
    unfold i32_to_u16
    rw [Int.emod_eq_of_lt hbrx0 hbrx]
  have hc4 : i32_to_u16 bry = bry.toNat := by
    unfold i32_to_u16
    rw [Int.emod_eq_of_lt hbry0 hbry]
  refine ⟨?_, ?_, ?_, ?_⟩
  · simp [ST7735.draw_rectangle_filled, ST7735.set_pixels_buffered,
      ST7735.write_pixels_buffered, andThen, set_address_window_none,
      write_command_none, ST7735.start_data, busOp, write_words_buffered_none,
      hm, hc1, hc2, hc3, hc4, hsize]
  · simp [ST7735.draw_rectangle_filled, ST7735.set_pixels_buffered,
      ST7735.write_pixels_buffered, andThen, set_address_window_none,
      write_command_none, ST7735.start_data, busOp, write_words_buffered_none,
      hm, hc1, hc2, hc3, hc4, hsize, Nat.mod_eq_of_lt hsx, Nat.mod_eq_of_lt hex,
      Nat.mod_eq_of_lt hsy, Nat.mod_eq_of_lt hey, List.append_assoc]
  · simpa [flushes] using joinChunks_bufFlushes (List.replicate (w * h) fill) []
  · rw [encodeWords_length]
    simp

theorem draw_rectangle_filled_spec_witness :
    ((new true false 128 160).failAt = none ∧
     (2 : Int) - 1 + 1 = ((2 : Nat) : Int) ∧ (3 : Int) - 2 + 1 = ((2 : Nat) : Int) ∧
     (0 : Nat) < 2 ∧ (0 : Nat) < 2 ∧
     (0 : Int) ≤ 1 ∧ (0 : Int) ≤ 2 ∧ (2 : Int) < 65536 ∧ (3 : Int) < 65536 ∧
     (1 : Int).toNat + (new true false 128 160).dx < 65536 ∧
     (2 : Int).toNat + (new true false 128 160).dx < 65536 ∧
     (2 : Int).toNat + (new true false 128 160).dy < 65536 ∧
     (3 : Int).toNat + (new true false 128 160).dy < 65536) ∧
    (((new true false 128 160).draw_rectangle_filled 1 2 2 3 0xFFFF).2 = true ∧
     ((new true false 128 160).draw_rectangle_filled 1 2 2 3 0xFFFF).1.trace =
       (new true false 128 160).trace ++
       ([Event.dcLow, Event.cmdWrite Instruction.CASET, Event.dcHigh,
         Event.dataWrite (to_be_bytes ((1 : Int).toNat + (new true false 128 160).dx)),
         Event.dataWrite (to_be_bytes ((2 : Int).toNat + (new true false 128 160).dx)),
         Event.dcLow, Event.cmdWrite Instruction.RASET, Event.dcHigh,
         Event.dataWrite (to_be_bytes ((2 : Int).toNat + (new true false 128 160).dy)),
         Event.dataWrite (to_be_bytes ((3 : Int).toNat + (new true false 128 160).dy)),
         Event.dcLow, Event.cmdWrite Instruction.RAMWR, Event.dcHigh] ++
        (flushes (List.replicate (2 * 2) 0xFFFF)).map Event.dataWrite) ∧
     joinChunks (flushes (List.replicate (2 * 2) 0xFFFF)) =
       encodeWords (List.replicate (2 * 2) 0xFFFF) ∧
     (encodeWords (List.replicate (2 * 2) 0xFFFF)).length = 2 * (2 * 2)) :=
  ⟨⟨rfl, by decide, by decide, by decide, by decide, by decide, by decide,
    by decide, by decide, by decide, by decide, by decide, by decide⟩,
   draw_rectangle_filled_spec (new true false 128 160) 1 2 2 3 0xFFFF 2 2 rfl
     (by decide) (by decide) (by decide) (by decide) (by decide) (by decide)
     (by decide) (by decide) (by decide) (by decide) (by decide) (by decide)⟩

/-- C9: a handle returned by new has global offset (0, 0), so the first
addressing call transmits the caller coordinates untranslated;
set_offset unconditionally replaces both offset components, and a
subsequent addressing call applies the new offset. -/
theorem new_offset_spec (rgb inverted : Bool) (width height sx sy ex ey dx dy : Nat)
    (hsx : sx < 65536) (hsy : sy < 65536) (hex : ex < 65536) (hey : ey < 65536) :
    (new rgb inverted width height).dx = 0 ∧
    (new rgb inverted width height).dy = 0 ∧
    ((new rgb inverted width height).set_address_window sx sy ex ey).1.trace =
      [Event.dcLow, Event.cmdWrite Instruction.CASET, Event.dcHigh,
       Event.dataWrite (to_be_bytes sx), Event.dataWrite (to_be_bytes ex),
       Event.dcLow, Event.cmdWrite Instruction.RASET, Event.dcHigh,
       Event.dataWrite (to_be_bytes sy), Event.dataWrite (to_be_bytes ey)] ∧
    (∀ m : ST7735, (m.set_offset dx dy).dx = dx ∧ (m.set_offset dx dy).dy = dy) ∧
    (((new rgb inverted width height).set_offset dx dy).set_address_window
        sx sy ex ey).1.trace =
      [Event.dcLow, Event.cmdWrite Instruction.CASET, Event.dcHigh,
       Event.dataWrite (to_be_bytes ((sx + dx) % 65536)),
       Event.dataWrite (to_be_bytes ((ex + dx) % 65536)),
       Event.dcLow, Event.cmdWrite Instruction.RASET, Event.dcHigh,
       Event.dataWrite (to_be_bytes ((sy + dy) % 65536)),
       Event.dataWrite (to_be_bytes ((ey + dy) % 65536))] := by
  refine ⟨rfl, rfl, ?_, fun m => ⟨rfl, rfl⟩, ?_⟩
  · rw [set_address_window_none sx sy ex ey rfl]
    simp [new, Nat.mod_eq_of_lt hsx, Nat.mod_eq_of_lt hex,
      Nat.mod_eq_of_lt hsy, Nat.mod_eq_of_lt hey]
  · rw [set_address_window_none sx sy ex ey rfl]
    simp [new, ST7735.set_offset]

theorem new_offset_spec_witness :
    ((3 : Nat) < 65536 ∧ (4 : Nat) < 65536 ∧ (5 : Nat) < 65536 ∧ (6 : Nat) < 65536) ∧
    ((new true false 128 160).dx = 0 ∧
     (new true false 128 160).dy = 0 ∧
     ((new true false 128 160).set_address_window 3 4 5 6).1.trace =
       [Event.dcLow, Event.cmdWrite Instruction.CASET, Event.dcHigh,
        Event.dataWrite (to_be_bytes 3), Event.dataWrite (to_be_bytes 5),
        Event.dcLow, Event.cmdWrite Instruction.RASET, Event.dcHigh,
        Event.dataWrite (to_be_bytes 4), Event.dataWrite (to_be_bytes 6)] ∧
     (∀ m : ST7735, (m.set_offset 100 200).dx = 100 ∧ (m.set_offset 100 200).dy = 200) ∧
     (((new true false 128 160).set_offset 100 200).set_address_window 3 4 5 6).1.trace =
       [Event.dcLow, Event.cmdWrite Instruction.CASET, Event.dcHigh,
        Event.dataWrite (to_be_bytes ((3 + 100) % 65536)),
        Event.dataWrite (to_be_bytes ((5 + 100) % 65536)),
        Event.dcLow, Event.cmdWrite Instruction.RASET, Event.dcHigh,
        Event.dataWrite (to_be_bytes ((4 + 200) % 65536)),
        Event.dataWrite (to_be_bytes ((6 + 200) % 65536))]) :=
  ⟨⟨by decide, by decide, by decide, by decide⟩,
   new_offset_spec true false 128 160 3 4 5 6 100 200
     (by decide) (by decide) (by decide) (by decide)⟩

/-- C10: the coordinate translation of set_address_window is unguarded
16-bit addition: each transmitted parameter is the sum reduced modulo
2^16, the call still succeeds (no saturation, no error), and a reduced
sum equals the mathematical sum exactly when the sum is below 2^16. -/
theorem set_address_window_wrap_spec (m : ST7735) (sx sy ex ey : Nat)
    (h : m.failAt = none) :
    (m.set_address_window sx sy ex ey).2 = true ∧
    (m.set_address_window sx sy ex ey).1.trace = m.trace ++
      [Event.dcLow, Event.cmdWrite Instruction.CASET, Event.dcHigh,
       Event.dataWrite (to_be_bytes ((sx + m.dx) % 65536)),
       Event.dataWrite (to_be_bytes ((ex + m.dx) % 65536)),
       Event.dcLow, Event.cmdWrite Instruction.RASET, Event.dcHigh,
       Event.dataWrite (to_be_bytes ((sy + m.dy) % 65536)),
       Event.dataWrite (to_be_bytes ((ey + m.dy) % 65536))] ∧
    (∀ a b : Nat, (a + b) % 65536 = a + b ↔ a + b < 65536) := by
  refine ⟨?_, ?_, fun a b => ⟨fun hab => ?_, fun hab => Nat.mod_eq_of_lt hab⟩⟩
  · rw [set_address_window_none sx sy ex ey h]
  · rw [set_address_window_none sx sy ex ey h]
  · rw [← hab]
    exact Nat.mod_lt _ (by omega)

theorem set_address_window_wrap_spec_witness :
    ((new true false 128 160).set_offset 65535 1).failAt = none ∧
    ((((new true false 128 160).set_offset 65535 1).set_address_window 2 3 4 5).2 = true ∧
     (((new true false 128 160).set_offset 65535 1).set_address_window 2 3 4 5).1.trace =
       ((new true false 128 160).set_offset 65535 1).trace ++
       [Event.dcLow, Event.cmdWrite Instruction.CASET, Event.dcHigh,
        Event.dataWrite (to_be_bytes ((2 + ((new true false 128 160).set_offset 65535 1).dx) % 65536)),
        Event.dataWrite (to_be_bytes ((4 + ((new true false 128 160).set_offset 65535 1).dx) % 65536)),
        Event.dcLow, Event.cmdWrite Instruction.RASET, Event.dcHigh,
        Event.dataWrite (to_be_bytes ((3 + ((new true false 128 160).set_offset 65535 1).dy) % 65536)),
        Event.dataWrite (to_be_bytes ((5 + ((new true false 128 160).set_offset 65535 1).dy) % 65536))] ∧
     (∀ a b : Nat, (a + b) % 65536 = a + b ↔ a + b < 65536)) :=
  ⟨rfl, set_address_window_wrap_spec ((new true false 128 160).set_offset 65535 1)
    2 3 4 5 rfl⟩

end St7735Lcd
